import Mathlib

/-!
Shallow embedding of the mvemu.chip8 emulator core (src/system.c, src/display.c)
over Nat, with machine-integer truncation made explicit:
8-bit registers and RAM bytes are kept with `% 256`, the 16-bit address
register, program counter and stack slots with `% 65536`, and the 12-bit
address mask `& 0x0fff` is `% 4096`.  Register files, RAM, the call stack,
the 64x32 pixel grid and the 16-entry key-state map are total functions
from Nat, updated pointwise; indices outside the array's real range are
simply never constrained (the C arrays there would be out of bounds).
External effects (SDL key snapshot, random(), POSIX timer calls, portaudio)
enter through an explicit environment record.
-/

namespace Chip8

/-- Pointwise update of a Nat-valued store (C array element assignment). -/
def upd (f : Nat → Nat) (i v : Nat) : Nat → Nat := fun j => if j = i then v else f j

/-- Pointwise update of a Bool-valued store. -/
def updB (f : Nat → Bool) (i : Nat) (v : Bool) : Nat → Bool := fun j => if j = i then v else f j

/-- Whole mutable state of the emulator: struct chip8_regs (V, I, PC, SP),
the out-of-RAM call stack `uint16_t stack[16]`, the 4096-byte RAM,
the logical pixel grid `uint8_t pixels[32 * 64]` of display.c (row-major,
index `y * 64 + x`, one Bool per pixel), the lazily refreshed
`uint8_t key_state[16]`, and the armed/playing status of the delay timer,
sound timer and portaudio playback. -/
structure Machine where
  V : Nat → Nat
  I : Nat
  PC : Nat
  SP : Nat
  stack : Nat → Nat
  ram : Nat → Nat
  px : Nat → Bool
  keys : Nat → Bool
  dtArmed : Bool
  stArmed : Bool
  playing : Bool

/-- The 16 general-purpose registers hold bytes (uint8_t V[16]). -/
def Machine.wfV (m : Machine) : Prop := ∀ i, i < 16 → m.V i < 256

/-- External world, as seen by one call of consume_ins: the value random()
returns, the SDL keyboard snapshot translated through key_map (key_map is
injective, so it is indexed here directly by CHIP-8 key code), the outcome
of the timer_gettime query of the delay timer in FX07 (none = the call
failed; some v = the call succeeded and the 60 Hz tick computation produced
the byte v), the success of the timer_settime calls in FX15/FX18, the
success of start_playback in FX18, the font_offset configuration global,
and the new_shift configuration global. -/
structure Env where
  rand : Nat
  keys : Nat → Bool
  dtQuery : Option Nat
  dtArm : Bool
  stArm : Bool
  playStart : Bool
  fontOff : Nat
  newShift : Bool

/-! ### display.c -/

/-- Body of the inner loop of display_sprite for the sprite row/column pair
`p = (i, j)`: compute the wrapped coordinates, XOR the pixel at
`pixels[_y * 64 + _x]` with sprite bit `(src[i] >> (7 - j)) & 0x01`, and
accumulate `collision |= (!*pxp && npx)` (note: `*pxp` is the pixel value
after the XOR). State is (pixel grid, collision flag). -/
def blit1 (x y : Nat) (src : Nat → Nat) (st : (Nat → Bool) × Bool) (p : Nat × Nat) :
    (Nat → Bool) × Bool :=
  let ax := (x + p.2) % 64
  let ay := (y + p.1) % 32
  let idx := ay * 64 + ax
  let npx := ((src p.1 % 256) >>> (7 - p.2)) % 2 == 1
  let newPx := xor (st.1 idx) npx
  (updB st.1 idx newPx, st.2 || (!newPx && npx))

/-- display_sprite of display.c: for each line i of the n-byte sprite and
each of its 8 pixels j, flip the target pixel and record collisions.
Returns the new pixel grid and the collision flag (the uint8_t return,
1 iff any pixel was turned off). The SDL point lists only mirror the grid
to the renderer and carry no further logical state. -/
def display_sprite (x y : Nat) (src : Nat → Nat) (n : Nat) (px0 : Nat → Bool) :
    (Nat → Bool) × Bool :=
  (List.range n).foldl
    (fun st i => (List.range 8).foldl (fun st2 j => blit1 x y src st2 (i, j)) st)
    (px0, false)

/-- Flat pixel index targeted by sprite row/column pair `p = (i, j)` when
drawing at origin (x, y): `((y + i) % 32) * 64 + (x + j) % 64`. -/
def tgt (x y : Nat) (p : Nat × Nat) : Nat := ((y + p.1) % 32) * 64 + (x + p.2) % 64

/-- Sprite bit for row/column pair `p = (i, j)`: `(src[i] >> (7 - j)) & 0x01`. -/
def sbit (src : Nat → Nat) (p : Nat × Nat) : Bool := ((src p.1 % 256) >>> (7 - p.2)) % 2 == 1

/-- The row/column pairs visited by the two nested loops of display_sprite,
in loop order. -/
def pairs (n : Nat) : List (Nat × Nat) :=
  (List.range n).flatMap (fun i => (List.range 8).map (fun j => (i, j)))

/-! ### update_keystate of system.c -/

/-- One iteration of the update_keystate loop at key index i, on state
(ret, key_state): record i as the first newly pressed key if key_state[i]
was clear, the fresh snapshot has it pressed and ret is still 0xff; then
overwrite key_state[i] with the snapshot value. -/
def uksStep (new : Nat → Bool) (st : Nat × (Nat → Bool)) (i : Nat) : Nat × (Nat → Bool) :=
  (if st.2 i = false ∧ new i = true ∧ st.1 = 255 then i else st.1,
   updB st.2 i (new i))

/-- update_keystate: refresh key_state[0..15] from the snapshot `new` and
return the lowest newly pressed key index, or 0xff if none. -/
def update_keystate (new : Nat → Bool) (m : Machine) : Nat × Machine :=
  let st := (List.range 16).foldl (uksStep new) (255, m.keys)
  (st.1, { m with keys := st.2 })

/-! ### Instruction handlers of system.c -/

/-- 00E0 - clear screen (clear_screen of display.c resets every pixel). -/
def ins_00E0 (m : Machine) : Machine := { m with px := fun _ => false }

/-- 00EE - return from subroutine: `regs.PC = stack[--regs.SP]` (the uint8_t
stack pointer decrement wraps; no underflow check). -/
def ins_00EE (m : Machine) : Machine :=
  { m with SP := (m.SP + 255) % 256, PC := m.stack ((m.SP + 255) % 256) % 65536 }

/-- 1NNN - jump to address NNN. -/
def ins_1NNN (nnn : Nat) (m : Machine) : Machine := { m with PC := nnn % 65536 }

/-- 2NNN - call subroutine: `stack[regs.SP++] = regs.PC; regs.PC = nnn`
(the uint8_t stack pointer increment wraps; no overflow check). -/
def ins_2NNN (nnn : Nat) (m : Machine) : Machine :=
  { m with stack := upd m.stack m.SP (m.PC % 65536), SP := (m.SP + 1) % 256,
           PC := nnn % 65536 }

/-- 3XKK - skip next ins if Vx equals KK. -/
def ins_3XKK (x kk : Nat) (m : Machine) : Machine :=
  { m with PC := (m.PC + if m.V x = kk then 2 else 0) % 65536 }

/-- 4XKK - skip next ins if Vx does not equal KK. -/
def ins_4XKK (x kk : Nat) (m : Machine) : Machine :=
  { m with PC := (m.PC + if m.V x = kk then 0 else 2) % 65536 }

/-- 5XY0 - skip next ins if Vx equals Vy. -/
def ins_5XY0 (x y : Nat) (m : Machine) : Machine :=
  { m with PC := (m.PC + if m.V x = m.V y then 2 else 0) % 65536 }

/-- 6XKK - set Vx to KK. -/
def ins_6XKK (x kk : Nat) (m : Machine) : Machine :=
  { m with V := upd m.V x (kk % 256) }

/-- 7XKK - add KK to Vx, wrapping, no flag side effect. -/
def ins_7XKK (x kk : Nat) (m : Machine) : Machine :=
  { m with V := upd m.V x ((m.V x + kk) % 256) }

/-- 8XY0 - copy Vy into Vx. -/
def ins_8XY0 (x y : Nat) (m : Machine) : Machine :=
  { m with V := upd m.V x (m.V y % 256) }

/-- 8XY1 - Vx |= Vy, then VF = 0x00 (the VF clear is written second, so at
x = 15 it overwrites the stored result). -/
def ins_8XY1 (x y : Nat) (m : Machine) : Machine :=
  { m with V := upd (upd m.V x ((m.V x ||| m.V y) % 256)) 15 0 }

/-- 8XY2 - Vx &= Vy, then VF = 0x00. -/
def ins_8XY2 (x y : Nat) (m : Machine) : Machine :=
  { m with V := upd (upd m.V x ((m.V x &&& m.V y) % 256)) 15 0 }

/-- 8XY3 - Vx ^= Vy, then VF = 0x00. -/
def ins_8XY3 (x y : Nat) (m : Machine) : Machine :=
  { m with V := upd (upd m.V x ((m.V x ^^^ m.V y) % 256)) 15 0 }

/-- 8XY4 - add: the operands are backed up, then `regs.VF = (Vx + Vy) > 0xff`
is written FIRST and `regs.V[x] = Vx + Vy` (wrapping) second - so at x = 15
the wrapped sum overwrites the carry flag. -/
def ins_8XY4 (x y : Nat) (m : Machine) : Machine :=
  let a := m.V x
  let b := m.V y
  { m with V := upd (upd m.V 15 (if a + b > 255 then 1 else 0)) x ((a + b) % 256) }

/-- 8XY5 - Vx := Vx - Vy wrapping; VF = (Vx > Vy), written first. -/
def ins_8XY5 (x y : Nat) (m : Machine) : Machine :=
  let a := m.V x
  let b := m.V y
  { m with V := upd (upd m.V 15 (if a > b then 1 else 0)) x ((a + 256 - b % 256) % 256) }

/-- 8XY6 - shift right: operand is Vy (or Vx when new_shift); Vx := operand >> 1
is written first, VF := operand & 1 second (carry overrides at x = 15). -/
def ins_8XY6 (ns : Bool) (x y : Nat) (m : Machine) : Machine :=
  let b := m.V (if ns then x else y)
  { m with V := upd (upd m.V x (b >>> 1)) 15 (b % 2) }

/-- 8XY7 - Vx := Vy - Vx wrapping; VF = (Vy > Vx), written first. -/
def ins_8XY7 (x y : Nat) (m : Machine) : Machine :=
  let a := m.V x
  let b := m.V y
  { m with V := upd (upd m.V 15 (if b > a then 1 else 0)) x ((b + 256 - a % 256) % 256) }

/-- 8XYE - shift left: operand is Vy (or Vx when new_shift); Vx := operand << 1
(truncated to 8 bits) first, VF := (operand & 0x80) >> 7 second. -/
def ins_8XYE (ns : Bool) (x y : Nat) (m : Machine) : Machine :=
  let b := m.V (if ns then x else y)
  { m with V := upd (upd m.V x ((b <<< 1) % 256)) 15 ((b % 256) >>> 7) }

/-- 9XY0 - skip next ins if Vx does not equal Vy. -/
def ins_9XY0 (x y : Nat) (m : Machine) : Machine :=
  { m with PC := (m.PC + if m.V x = m.V y then 0 else 2) % 65536 }

/-- ANNN - set I. -/
def ins_ANNN (nnn : Nat) (m : Machine) : Machine := { m with I := nnn % 65536 }

/-- BNNN - jump to NNN + V0, masked with 0x0fff. -/
def ins_BNNN (nnn : Nat) (m : Machine) : Machine :=
  { m with PC := (nnn + m.V 0) % 4096 }

/-- CXKK - Vx := random() & KK. -/
def ins_CXKK (r x kk : Nat) (m : Machine) : Machine :=
  { m with V := upd m.V x ((r &&& kk) % 256) }

/-- DXYN - draw the n-byte sprite at RAM address I at screen position
(Vx, Vy); VF := collision result of display_sprite. -/
def ins_DXYN (x y n : Nat) (m : Machine) : Machine :=
  let r := display_sprite (m.V x) (m.V y) (fun a => m.ram (m.I + a)) n m.px
  { m with px := r.1, V := upd m.V 15 (if r.2 then 1 else 0) }

/-- EX9E - lazy key-state refresh, then skip next ins if key Vx is pressed. -/
def ins_EX9E (new : Nat → Bool) (x : Nat) (m : Machine) : Machine :=
  let r := update_keystate new m
  { r.2 with PC := (r.2.PC + if r.2.keys (r.2.V x) then 2 else 0) % 65536 }

/-- EXA1 - lazy key-state refresh, then skip next ins if key Vx is not pressed. -/
def ins_EXA1 (new : Nat → Bool) (x : Nat) (m : Machine) : Machine :=
  let r := update_keystate new m
  { r.2 with PC := (r.2.PC + if r.2.keys (r.2.V x) then 0 else 2) % 65536 }

/-- FX07 - store DT to Vx. The handler first clears Vx ("in preparation for
a sudden abort in case of error"), then queries the delay timer; on failure
it RETurns with a diagnostic, leaving Vx = 0; on success it stores the
computed byte. Second component: diagnostic emitted. -/
def ins_FX07 (q : Option Nat) (x : Nat) (m : Machine) : Machine × Bool :=
  let m1 := { m with V := upd m.V x 0 }
  match q with
  | none => (m1, true)
  | some d => ({ m1 with V := upd m1.V x (d % 256) }, false)

/-- FX0A - wait for key: Vx := update_keystate() unconditionally; if the
stored value is not a key code (> 0x0f), rewind PC by 2 so the instruction
retries on the next cycle. -/
def ins_FX0A (new : Nat → Bool) (x : Nat) (m : Machine) : Machine :=
  let r := update_keystate new m
  let m1 : Machine := { r.2 with V := upd r.2.V x (r.1 % 256) }
  if m1.V x > 0x0f then { m1 with PC := (m1.PC + 65534) % 65536 } else m1

/-- FX15 - arm the delay timer from Vx via timer_settime; on failure RETurn
with a diagnostic, timer not armed. -/
def ins_FX15 (armOk : Bool) (x : Nat) (m : Machine) : Machine × Bool :=
  if armOk then ({ m with dtArmed := true }, false) else (m, true)

/-- FX18 - arm the sound timer from Vx via timer_settime, then start
portaudio playback. A timer_settime failure RETurns before anything was
armed; a start_playback failure RETurns with the sound timer left armed. -/
def ins_FX18 (armOk playOk : Bool) (x : Nat) (m : Machine) : Machine × Bool :=
  if armOk then
    if playOk then ({ m with stArmed := true, playing := true }, false)
    else ({ m with stArmed := true }, true)
  else (m, true)

/-- FX1E - I += Vx with uint16 wrap, VF := (I > 0x0fff) on the incremented
value, then I &= 0x0fff. -/
def ins_FX1E (x : Nat) (m : Machine) : Machine :=
  let i1 := (m.I + m.V x) % 65536
  { m with I := i1 % 4096, V := upd m.V 15 (if i1 > 4095 then 1 else 0) }

/-- FX29 - I := font_offset + 5 * (Vx & 0x0f); no 12-bit mask. -/
def ins_FX29 (fo x : Nat) (m : Machine) : Machine :=
  { m with I := (fo + 5 * (m.V x % 16)) % 65536 }

/-- FX33 - store the BCD digits of Vx at RAM addresses I, I+1, I+2. -/
def ins_FX33 (x : Nat) (m : Machine) : Machine :=
  { m with ram := upd (upd (upd m.ram m.I (m.V x / 100 % 10))
                           (m.I + 1) (m.V x / 10 % 10))
                      (m.I + 2) (m.V x % 10) }

/-- FX55 - memmove V0..Vx to RAM at I, then I += x + 1 (quirk; no 12-bit
mask on the incremented I). -/
def ins_FX55 (x : Nat) (m : Machine) : Machine :=
  { m with ram := (List.range (x + 1)).foldl (fun r k => upd r (m.I + k) (m.V k % 256)) m.ram,
           I := (m.I + (x + 1)) % 65536 }

/-- FX65 - memmove RAM at I to V0..Vx, then I += x + 1 (quirk; no 12-bit
mask on the incremented I). -/
def ins_FX65 (x : Nat) (m : Machine) : Machine :=
  { m with V := (List.range (x + 1)).foldl (fun v k => upd v k (m.ram (m.I + k) % 256)) m.V,
           I := (m.I + (x + 1)) % 65536 }

/-! ### consume_ins of system.c -/

/-- Decode/dispatch part of consume_ins, on the already fetched instruction
word and the already advanced machine. Mirrors the nested switch: the
default branches of the 0x0, 0x5, 0x8, 0x9 and 0xE classes RET with an
"unknown instruction" diagnostic (second component true) and abandon the
rest of the cycle; the 0xF class has NO default branch, so an unmatched
0xF pattern falls through silently. The second component records whether a
diagnostic was printed; in either case the callback merely returns - the
CPU timer stays armed and execution continues at the next tick. -/
def dispatch (env : Env) (ins : Nat) (m : Machine) : Machine × Bool :=
  let nnn := ins % 4096
  let kk := ins % 256
  let n := ins % 16
  let x := ins / 256 % 16
  let y := ins / 16 % 16
  if ins / 4096 = 0x0 then
    if ins = 0x00e0 then (ins_00E0 m, false)
    else if ins = 0x00ee then (ins_00EE m, false)
    else (m, true)
  else if ins / 4096 = 0x1 then (ins_1NNN nnn m, false)
  else if ins / 4096 = 0x2 then (ins_2NNN nnn m, false)
  else if ins / 4096 = 0x3 then (ins_3XKK x kk m, false)
  else if ins / 4096 = 0x4 then (ins_4XKK x kk m, false)
  else if ins / 4096 = 0x5 then
    if n = 0x0 then (ins_5XY0 x y m, false) else (m, true)
  else if ins / 4096 = 0x6 then (ins_6XKK x kk m, false)
  else if ins / 4096 = 0x7 then (ins_7XKK x kk m, false)
  else if ins / 4096 = 0x8 then
    if n = 0x0 then (ins_8XY0 x y m, false)
    else if n = 0x1 then (ins_8XY1 x y m, false)
    else if n = 0x2 then (ins_8XY2 x y m, false)
    else if n = 0x3 then (ins_8XY3 x y m, false)
    else if n = 0x4 then (ins_8XY4 x y m, false)
    else if n = 0x5 then (ins_8XY5 x y m, false)
    else if n = 0x6 then (ins_8XY6 env.newShift x y m, false)
    else if n = 0x7 then (ins_8XY7 x y m, false)
    else if n = 0xe then (ins_8XYE env.newShift x y m, false)
    else (m, true)
  else if ins / 4096 = 0x9 then
    if n = 0x0 then (ins_9XY0 x y m, false) else (m, true)
  else if ins / 4096 = 0xa then (ins_ANNN nnn m, false)
  else if ins / 4096 = 0xb then (ins_BNNN nnn m, false)
  else if ins / 4096 = 0xc then (ins_CXKK env.rand x kk m, false)
  else if ins / 4096 = 0xd then (ins_DXYN x y n m, false)
  else if ins / 4096 = 0xe then
    if kk = 0x9e then (ins_EX9E env.keys x m, false)
    else if kk = 0xa1 then (ins_EXA1 env.keys x m, false)
    else (m, true)
  else if ins / 4096 = 0xf then
    if kk = 0x07 then ins_FX07 env.dtQuery x m
    else if kk = 0x0a then (ins_FX0A env.keys x m, false)
    else if kk = 0x15 then ins_FX15 env.dtArm x m
    else if kk = 0x18 then ins_FX18 env.stArm env.playStart x m
    else if kk = 0x1e then (ins_FX1E x m, false)
    else if kk = 0x29 then (ins_FX29 env.fontOff x m, false)
    else if kk = 0x33 then (ins_FX33 x m, false)
    else if kk = 0x55 then (ins_FX55 x m, false)
    else if kk = 0x65 then (ins_FX65 x m, false)
    else (m, false)
  else (m, false)

/-- Big-endian instruction fetch at PC: `ntohs(*(uint16_t *)(ram + regs.PC))`.
No bounds or alignment check of any kind is performed on PC. -/
def fetchWord (m : Machine) : Nat := m.ram m.PC % 256 * 256 + m.ram (m.PC + 1) % 256

/-- One firing of the consume_ins callback, restricted to the
fetch-decode-execute path (no pending SDL quit event, no reentrancy):
fetch at PC, advance PC by 2, dispatch. -/
def consume_ins (env : Env) (m : Machine) : Machine × Bool :=
  dispatch env (fetchWord m) { m with PC := (m.PC + 2) % 65536 }

/-- The instruction words for which the dispatch switch reaches a handler,
branch for branch the same conditions as `dispatch`. -/
def documented (ins : Nat) : Bool :=
  if ins / 4096 = 0x0 then decide (ins = 0x00e0 ∨ ins = 0x00ee)
  else if ins / 4096 = 0x1 then true
  else if ins / 4096 = 0x2 then true
  else if ins / 4096 = 0x3 then true
  else if ins / 4096 = 0x4 then true
  else if ins / 4096 = 0x5 then decide (ins % 16 = 0x0)
  else if ins / 4096 = 0x6 then true
  else if ins / 4096 = 0x7 then true
  else if ins / 4096 = 0x8 then
    decide (ins % 16 = 0x0 ∨ ins % 16 = 0x1 ∨ ins % 16 = 0x2 ∨ ins % 16 = 0x3 ∨
            ins % 16 = 0x4 ∨ ins % 16 = 0x5 ∨ ins % 16 = 0x6 ∨ ins % 16 = 0x7 ∨
            ins % 16 = 0xe)
  else if ins / 4096 = 0x9 then decide (ins % 16 = 0x0)
  else if ins / 4096 = 0xa then true
  else if ins / 4096 = 0xb then true
  else if ins / 4096 = 0xc then true
  else if ins / 4096 = 0xd then true
  else if ins / 4096 = 0xe then decide (ins % 256 = 0x9e ∨ ins % 256 = 0xa1)
  else if ins / 4096 = 0xf then
    decide (ins % 256 = 0x07 ∨ ins % 256 = 0x0a ∨ ins % 256 = 0x15 ∨ ins % 256 = 0x18 ∨
            ins % 256 = 0x1e ∨ ins % 256 = 0x29 ∨ ins % 256 = 0x33 ∨ ins % 256 = 0x55 ∨
            ins % 256 = 0x65)
  else false

/-! ### Concrete states used to evaluate the model -/

/-- A fresh machine as left by init_system (ROM/font aside): registers,
stack and RAM zeroed, display cleared, no key pressed, PC at the default
ROM offset 0x200. -/
def base : Machine :=
  { V := fun _ => 0, I := 0, PC := 0x200, SP := 0, stack := fun _ => 0,
    ram := fun _ => 0, px := fun _ => false, keys := fun _ => false,
    dtArmed := false, stArmed := false, playing := false }

/-- A benign environment: no key pressed, external calls succeed, default
configuration (font offset 0x50, original shift semantics). -/
def env0 : Env :=
  { rand := 0, keys := fun _ => false, dtQuery := some 0, dtArm := true,
    stArm := true, playStart := true, fontOff := 0x50, newShift := false }

/-- State with V15 = 200 and V0 = 100 (operands of an overflowing add). -/
def mAdd : Machine := { base with V := upd (upd base.V 15 200) 0 100 }

/-- State with V15 = 1 and V0 = 2 (operands of a bitwise OR aimed at VF). -/
def mOr : Machine := { base with V := upd (upd base.V 15 1) 0 2 }

/-- State whose 16-entry call stack is full (SP = 16). -/
def mFull : Machine := { base with SP := 16 }

/-- State with the address register at the top of the 12-bit range. -/
def mIdx : Machine := { base with I := 0xfff }

/-- State with V0 = 5 and I = 0x300 over zeroed RAM. -/
def mRT : Machine := { base with V := upd base.V 0 5, I := 0x300 }

/-- State with sprite origin V0 = 62, V1 = 30 (wrapping corner), I = 0x300
and one sprite byte 0xC0 in RAM. -/
def mDraw : Machine :=
  { base with V := upd (upd base.V 0 62) 1 30, I := 0x300,
              ram := upd base.ram 0x300 0xc0 }

/-- The font sprite table copied into RAM by init_system. -/
def fontSprites : List Nat :=
  [0xF0, 0x90, 0x90, 0x90, 0xF0,
   0x20, 0x60, 0x20, 0x20, 0x70,
   0xF0, 0x10, 0xF0, 0x80, 0xF0,
   0xF0, 0x10, 0xF0, 0x10, 0xF0,
   0x90, 0x90, 0xF0, 0x10, 0x10,
   0xF0, 0x80, 0xF0, 0x10, 0xF0,
   0xF0, 0x80, 0xF0, 0x90, 0xF0,
   0xF0, 0x10, 0x20, 0x40, 0x40,
   0xF0, 0x90, 0xF0, 0x90, 0xF0,
   0xF0, 0x90, 0xF0, 0x10, 0xF0,
   0xF0, 0x90, 0xF0, 0x90, 0x90,
   0xE0, 0x90, 0xE0, 0x90, 0xE0,
   0xF0, 0x80, 0x80, 0x80, 0xF0,
   0xE0, 0x90, 0x90, 0x90, 0xE0,
   0xF0, 0x80, 0xF0, 0x80, 0xF0,
   0xF0, 0x80, 0xF0, 0x80, 0x80]

/-- RAM as init_system leaves it for the 5-byte ROM
`12 03 00 60 05` loaded at the default offset 0x200 (jump to the odd
address 0x203, where the bytes encode 0x6005), font sprites at the default
offset 0x50, everything else zero. -/
def bootRam : Nat → Nat := fun a =>
  if a = 0x200 then 0x12 else if a = 0x201 then 0x03
  else if a = 0x203 then 0x60 else if a = 0x204 then 0x05
  else if 0x50 ≤ a ∧ a < 0xa0 then fontSprites.getD (a - 0x50) 0 else 0

/-- Machine at sys_start over that ROM: PC = rom offset 0x200. -/
def mBoot : Machine := { base with ram := bootRam }

/-- Environment in which the FX07 delay-timer query fails. -/
def envFail : Env := { env0 with dtQuery := none }

/-- State with V4 = 5 (a register about to be clobbered by FX07). -/
def mDelay : Machine := { base with V := upd base.V 4 5 }

/-! ### Helper lemmas about pointwise updates -/

theorem upd_same (f : Nat → Nat) (i v : Nat) : upd f i v i = v := by
  simp [upd]

theorem upd_other (f : Nat → Nat) (i v j : Nat) (h : j ≠ i) : upd f i v j = f j := by
  simp [upd, h]

theorem updB_same (f : Nat → Bool) (i : Nat) (v : Bool) : updB f i v i = v := by
  simp [updB]

theorem updB_other (f : Nat → Bool) (i : Nat) (v : Bool) (j : Nat) (h : j ≠ i) :
    updB f i v j = f j := by
  simp [updB, h]

/-- Reading back a fold of pointwise updates at pairwise distinct addresses
`a 0, ..., a (cnt-1)`: slot `a k` holds `g k`. -/
theorem foldl_upd_point (a g : Nat → Nat) (f0 : Nat → Nat) (cnt : Nat)
    (ha : ∀ i j, i < cnt → j < cnt → a i = a j → i = j) (k : Nat) (hk : k < cnt) :
    ((List.range cnt).foldl (fun f t => upd f (a t) (g t)) f0) (a k) = g k := by
  induction cnt with
  | zero => omega
  | succ c ih =>
    rw [List.range_succ, List.foldl_append, List.foldl_cons, List.foldl_nil]
    by_cases hkc : k = c
    · subst hkc; exact upd_same _ _ _
    · have hklt : k < c := by omega
      rw [upd_other _ _ _ _ (fun hak => hkc (ha k c hk (by omega) hak))]
      exact ih (fun i j hi hj => ha i j (by omega) (by omega)) hklt

/-! ### C2 - add reg,reg carry flag (ins_8XY4) -/

/-- C2: the handler writes the carry into VF and only then stores the
wrapped sum into Vx, so for x = 15 the sum overwrites the flag: with
V15 = 200 and V0 = 100 the unsigned sum 300 exceeds 255, yet after
instruction 0x8F04 the flag register holds (200+100) mod 256 = 44, not 1.
This contradicts the handler's own header comment (VF = carry). -/
theorem ins_8XY4_flag_clobbered_at_x15 :
    mAdd.V 15 + mAdd.V 0 > 255 ∧ (ins_8XY4 15 0 mAdd).V 15 = 44 ∧
    (ins_8XY4 15 0 mAdd).V 15 ≠ 1 := by
  decide

/-! ### C3 - bitwise ops clear VF (ins_8XY1/2/3) -/

/-- C3 counterexample: for x = 15 the unconditional VF clear overwrites the
stored bitwise result, so the claim's "stores the bitwise result into Vx"
fails there: with V15 = 1, V0 = 2 the OR result is 3, but after 0x8F01 the
register V15 = VF holds 0. -/
theorem ins_8XY1_x15_result_lost :
    mOr.V 15 ||| mOr.V 0 = 3 ∧ (ins_8XY1 15 0 mOr).V 15 = 0 := by
  decide

/-- C3 (amended): each of OR/AND/XOR unconditionally clears the flag
register, whatever its prior value; the bitwise result reaches Vx whenever
x ≠ 15 (at x = 15 the clear, being written second, overwrites it). -/
theorem bitwise_ops_clear_flag (x y : Nat) (m : Machine) (hx : x < 16) (hy : y < 16)
    (hm : m.wfV) :
    ((ins_8XY1 x y m).V 15 = 0 ∧ (x ≠ 15 → (ins_8XY1 x y m).V x = (m.V x ||| m.V y)))
    ∧ ((ins_8XY2 x y m).V 15 = 0 ∧ (x ≠ 15 → (ins_8XY2 x y m).V x = (m.V x &&& m.V y)))
    ∧ ((ins_8XY3 x y m).V 15 = 0 ∧ (x ≠ 15 → (ins_8XY3 x y m).V x = (m.V x ^^^ m.V y))) := by
  have hvx := hm x hx
  have hvy := hm y hy
  have hor : m.V x ||| m.V y < 256 := Nat.or_lt_two_pow (n := 8) hvx hvy
  have hand : m.V x &&& m.V y < 256 := Nat.and_lt_two_pow (n := 8) (m.V x) hvy
  have hxor : m.V x ^^^ m.V y < 256 := Nat.xor_lt_two_pow (n := 8) hvx hvy
  refine ⟨⟨?_, ?_⟩, ⟨?_, ?_⟩, ⟨?_, ?_⟩⟩ <;>
    simp [ins_8XY1, ins_8XY2, ins_8XY3, upd] <;>
    intro hx15 <;>
    simp [hx15, Nat.mod_eq_of_lt, hor, hand, hxor]

/-- Witness for the amended C3 at x = 3, y = 4 on a concrete state. -/
theorem bitwise_ops_clear_flag_witness :
    ((ins_8XY1 3 4 mOr).V 15 = 0 ∧ (3 ≠ 15 → (ins_8XY1 3 4 mOr).V 3 = (mOr.V 3 ||| mOr.V 4)))
    ∧ ((ins_8XY2 3 4 mOr).V 15 = 0 ∧ (3 ≠ 15 → (ins_8XY2 3 4 mOr).V 3 = (mOr.V 3 &&& mOr.V 4)))
    ∧ ((ins_8XY3 3 4 mOr).V 15 = 0 ∧ (3 ≠ 15 → (ins_8XY3 3 4 mOr).V 3 = (mOr.V 3 ^^^ mOr.V 4))) :=
  bitwise_ops_clear_flag 3 4 mOr (by decide) (by decide)
    (by intro i _; simp only [mOr, base, upd]; split <;> first | decide | split <;> decide)

/-! ### C5 - call stack overflow/underflow (ins_2NNN, ins_00EE) -/

/-- C5 counterexample: a call on a full stack (SP = 16) is dispatched with
no diagnostic and leaves SP = 17; a return on an empty stack (SP = 0) is
dispatched with no diagnostic and leaves SP = 255. Neither halts. -/
theorem stack_overflow_underflow_unchecked :
    (dispatch env0 0x2345 mFull).2 = false ∧ (dispatch env0 0x2345 mFull).1.SP = 17 ∧
    (dispatch env0 0x00ee base).2 = false ∧ (dispatch env0 0x00ee base).1.SP = 255 := by
  decide

/-- C5 (amended): call and return perform no stack bound check at all: for
every state, call writes the current PC at stack slot SP (out of bounds
once SP = 16) and bumps the uint8 SP, return decrements the uint8 SP with
wraparound (SP = 0 becomes 255) and loads the PC from that slot; no error
is reported and execution continues. -/
theorem stack_ops_unchecked (nnn : Nat) (m : Machine) :
    ((ins_2NNN nnn m).SP = (m.SP + 1) % 256 ∧
     (ins_2NNN nnn m).stack = upd m.stack m.SP (m.PC % 65536) ∧
     (ins_2NNN nnn m).PC = nnn % 65536)
    ∧ ((ins_00EE m).SP = (m.SP + 255) % 256 ∧
       (ins_00EE m).PC = m.stack ((m.SP + 255) % 256) % 65536) :=
  ⟨⟨rfl, rfl, rfl⟩, rfl, rfl⟩

/-! ### C7 - 12-bit confinement of the address register -/

/-- C7 counterexample: store-registers with x = 0 at I = 0x0fff advances I
to 0x1000, past the 12-bit range - no mask is applied. -/
theorem index_after_FX55_exceeds_12bit :
    (ins_FX55 0 mIdx).I = 0x1000 ∧ 0x0fff < (ins_FX55 0 mIdx).I := by
  decide

/-- C7 (amended): only set-index (by its 12-bit immediate) and add-to-index
(by its explicit final mask) leave I within 0x0fff; store-registers,
load-registers and font-address write I unmasked (modulo the uint16 width
only), so I may exceed 0x0fff after them. -/
theorem index_masking_partial (x nnn fo : Nat) (m : Machine) (hnnn : nnn < 4096) :
    (ins_ANNN nnn m).I ≤ 0xfff
    ∧ (ins_FX1E x m).I ≤ 0xfff
    ∧ (ins_FX55 x m).I = (m.I + (x + 1)) % 65536
    ∧ (ins_FX65 x m).I = (m.I + (x + 1)) % 65536
    ∧ (ins_FX29 fo x m).I = (fo + 5 * (m.V x % 16)) % 65536 := by
  refine ⟨?_, ?_, rfl, rfl, rfl⟩
  · show nnn % 65536 ≤ 0xfff
    omega
  · show (m.I + m.V x) % 65536 % 4096 ≤ 0xfff
    omega

/-- Witness for the amended C7 at x = 3, nnn = 0x123, fo = 0x50 on a
concrete state. -/
theorem index_masking_partial_witness :
    (ins_ANNN 0x123 mIdx).I ≤ 0xfff
    ∧ (ins_FX1E 3 mIdx).I ≤ 0xfff
    ∧ (ins_FX55 3 mIdx).I = (mIdx.I + (3 + 1)) % 65536
    ∧ (ins_FX65 3 mIdx).I = (mIdx.I + (3 + 1)) % 65536
    ∧ (ins_FX29 0x50 3 mIdx).I = (0x50 + 5 * (mIdx.V 3 % 16)) % 65536 :=
  index_masking_partial 3 0x123 0x50 mIdx (by decide)

/-! ### C8 - store-registers / load-registers round trip -/

/-- C8 counterexample: FX55 with x = 0 at I = 0x300 stores V0 = 5 and
advances I to 0x301; an immediately following FX65 therefore reads from
0x301 (not from the stored block) and loads V0 = 0. The net advance is
2(x+1) = 2, but V0 is not preserved. -/
theorem store_then_load_not_roundtrip :
    mRT.V 0 = 5 ∧ (ins_FX65 0 (ins_FX55 0 mRT)).V 0 = 0 ∧
    (ins_FX65 0 (ins_FX55 0 mRT)).I = 0x302 := by
  decide

/-- C8 (amended): each of store-registers(x) and load-registers(x) advances
I by x+1 (uint16-wrapped); executed back to back the net advance is 2(x+1)
but the load reads past the stored block, so V0..Vx survive only if I is
restored to the store's starting address before the load - in which case
every V k (k ≤ x) is recovered exactly. -/
theorem store_load_roundtrip (x k : Nat) (m : Machine) (hx : x < 16) (hk : k ≤ x)
    (hm : m.wfV) :
    (ins_FX55 x m).I = (m.I + (x + 1)) % 65536
    ∧ (ins_FX65 x (ins_FX55 x m)).I = (m.I + 2 * (x + 1)) % 65536
    ∧ (ins_FX65 x { ins_FX55 x m with I := m.I }).I = (m.I + (x + 1)) % 65536
    ∧ (ins_FX65 x { ins_FX55 x m with I := m.I }).V k = m.V k := by
  refine ⟨rfl, ?_, rfl, ?_⟩
  · show ((m.I + (x + 1)) % 65536 + (x + 1)) % 65536 = (m.I + 2 * (x + 1)) % 65536
    omega
  · have hload := foldl_upd_point (fun t => t)
      (fun t => (ins_FX55 x m).ram (m.I + t) % 256) m.V (x + 1)
      (fun i j _ _ h => h) k (by omega)
    have hstore := foldl_upd_point (fun t => m.I + t) (fun t => m.V t % 256) m.ram (x + 1)
      (fun i j _ _ h => Nat.add_left_cancel h) k (by omega)
    show (List.range (x + 1)).foldl
        (fun v t => upd v t ((ins_FX55 x m).ram (m.I + t) % 256)) m.V k = m.V k
    rw [hload]
    show (ins_FX55 x m).ram (m.I + k) % 256 = m.V k
    have hthis : (ins_FX55 x m).ram (m.I + k) = m.V k % 256 := hstore
    rw [hthis]
    have := hm k (by omega)
    omega

/-- Witness for the amended C8 at x = 2, k = 1 on a concrete state. -/
theorem store_load_roundtrip_witness :
    (ins_FX55 2 mRT).I = (mRT.I + (2 + 1)) % 65536
    ∧ (ins_FX65 2 (ins_FX55 2 mRT)).I = (mRT.I + 2 * (2 + 1)) % 65536
    ∧ (ins_FX65 2 { ins_FX55 2 mRT with I := mRT.I }).I = (mRT.I + (2 + 1)) % 65536
    ∧ (ins_FX65 2 { ins_FX55 2 mRT with I := mRT.I }).V 1 = mRT.V 1 :=
  store_load_roundtrip 2 1 mRT (by decide) (by decide)
    (by intro i _; simp only [mRT, base, upd]; split <;> decide)

/-! ### C1 - sprite blit: wraparound, XOR, collision -/

theorem any_congr_mem {α : Type} (L : List α) (p q : α → Bool) (h : ∀ a ∈ L, p a = q a) :
    L.any p = L.any q := by
  induction L with
  | nil => rfl
  | cons a L ih =>
    simp only [List.any_cons]
    rw [h a (List.mem_cons_self a L), ih (fun b hb => h b (List.mem_cons_of_mem a hb))]

/-- One blit step, written with the target index and sprite bit named: the
pixel at the target flips by the sprite bit, and the collision flag picks
up (old pixel AND sprite bit) - because `!(old XOR b) && b = old && b`. -/
theorem blit1_eq (x y : Nat) (src : Nat → Nat) (st : (Nat → Bool) × Bool) (p : Nat × Nat) :
    blit1 x y src st p =
      (updB st.1 (tgt x y p) (xor (st.1 (tgt x y p)) (sbit src p)),
       st.2 || (st.1 (tgt x y p) && sbit src p)) := by
  have hb : ∀ c o b : Bool, (c || (!(xor o b) && b)) = (c || (o && b)) := by decide
  simp only [blit1, tgt, sbit, Prod.mk.injEq]
  exact ⟨trivial, hb _ _ _⟩

theorem foldl_blit_untouched (x y : Nat) (src : Nat → Nat) (L : List (Nat × Nat))
    (st : (Nat → Bool) × Bool) (q : Nat) (hq : ∀ p ∈ L, tgt x y p ≠ q) :
    (L.foldl (blit1 x y src) st).1 q = st.1 q := by
  induction L generalizing st with
  | nil => rfl
  | cons a L ih =>
    rw [List.foldl_cons, ih _ (fun p hp => hq p (List.mem_cons_of_mem a hp))]
    rw [blit1_eq]
    exact updB_other _ _ _ _ (Ne.symm (hq a (List.mem_cons_self a L)))

/-- Folding blit steps over pairs with pairwise distinct targets: each
visited target ends at (its original value XOR its sprite bit), and the
collision flag is the OR, over the visited pairs, of
(original pixel AND sprite bit). -/
theorem foldl_blit_spec (x y : Nat) (src : Nat → Nat) (L : List (Nat × Nat))
    (st : (Nat → Bool) × Bool)
    (hL : L.Pairwise (fun p q => tgt x y p ≠ tgt x y q)) :
    (∀ p ∈ L, (L.foldl (blit1 x y src) st).1 (tgt x y p) = xor (st.1 (tgt x y p)) (sbit src p))
    ∧ (L.foldl (blit1 x y src) st).2
        = (st.2 || L.any (fun p => st.1 (tgt x y p) && sbit src p)) := by
  induction L generalizing st with
  | nil => exact ⟨fun p hp => absurd hp (List.not_mem_nil p), by simp⟩
  | cons a L ih =>
    obtain ⟨ha, hL2⟩ := List.pairwise_cons.mp hL
    have hsta1 : (blit1 x y src st a).1
        = updB st.1 (tgt x y a) (xor (st.1 (tgt x y a)) (sbit src a)) := by rw [blit1_eq]
    have hsta2 : (blit1 x y src st a).2 = (st.2 || (st.1 (tgt x y a) && sbit src a)) := by
      rw [blit1_eq]
    obtain ⟨ih1, ih2⟩ := ih (blit1 x y src st a) hL2
    constructor
    · intro p hp
      rcases List.mem_cons.mp hp with h | h
      · subst h
        rw [List.foldl_cons, foldl_blit_untouched x y src L _ _ (fun r hr => Ne.symm (ha r hr))]
        rw [hsta1, updB_same]
      · rw [List.foldl_cons, ih1 p h, hsta1,
            updB_other _ _ _ _ (Ne.symm (ha p h))]
    · rw [List.foldl_cons, ih2, hsta2]
      have hcong : L.any (fun p => (blit1 x y src st a).1 (tgt x y p) && sbit src p)
          = L.any (fun p => st.1 (tgt x y p) && sbit src p) := by
        refine any_congr_mem L _ _ (fun p hp => ?_)
        rw [hsta1, updB_other _ _ _ _ (Ne.symm (ha p hp))]
      rw [hcong, List.any_cons, Bool.or_assoc]

theorem mem_pairs (n : Nat) (p : Nat × Nat) : p ∈ pairs n ↔ p.1 < n ∧ p.2 < 8 := by
  unfold pairs
  rw [List.mem_flatMap]
  constructor
  · rintro ⟨i, hi, hp⟩
    rw [List.mem_map] at hp
    obtain ⟨j, hj, rfl⟩ := hp
    exact ⟨List.mem_range.mp hi, List.mem_range.mp hj⟩
  · rintro ⟨h1, h2⟩
    exact ⟨p.1, List.mem_range.mpr h1, List.mem_map.mpr ⟨p.2, List.mem_range.mpr h2, rfl⟩⟩

/-- For sprites of at most 32 rows, no two loop iterations hit the same
pixel: row indices below 32 stay distinct mod 32 and column offsets below
8 stay distinct mod 64. -/
theorem pairs_pairwise_tgt (x y n : Nat) (hn : n ≤ 32) :
    (pairs n).Pairwise (fun p q => tgt x y p ≠ tgt x y q) := by
  unfold pairs
  rw [List.pairwise_flatMap]
  constructor
  · intro i _hi
    rw [List.pairwise_map]
    refine (List.pairwise_lt_range 8).imp_of_mem (fun ha hb hab h => ?_)
    have h1 := List.mem_range.mp ha
    have h2 := List.mem_range.mp hb
    simp only [tgt] at h
    omega
  · refine (List.pairwise_lt_range n).imp_of_mem (fun ha hb hab p hp q hq h => ?_)
    have h1 := List.mem_range.mp ha
    have h2 := List.mem_range.mp hb
    obtain ⟨jp, hjp, rfl⟩ := List.mem_map.mp hp
    obtain ⟨jq, hjq, rfl⟩ := List.mem_map.mp hq
    have h3 := List.mem_range.mp hjp
    have h4 := List.mem_range.mp hjq
    simp only [tgt] at h
    omega

/-- The two nested loops of display_sprite visit exactly the pair list
`pairs n` in order. -/
theorem display_sprite_eq_pairs (x y : Nat) (src : Nat → Nat) (n : Nat) (px0 : Nat → Bool) :
    display_sprite x y src n px0 = (pairs n).foldl (blit1 x y src) (px0, false) := by
  show (List.range n).foldl _ (px0, false) = _
  generalize (px0, false) = st
  induction n generalizing st with
  | zero => rfl
  | succ c ih =>
    have hp : pairs (c + 1) = pairs c ++ (List.range 8).map (fun j => (c, j)) := by
      unfold pairs
      rw [List.range_succ (n := c), List.flatMap_append]
      simp
    rw [List.range_succ (n := c), List.foldl_append, ih, hp, List.foldl_append, List.foldl_map]
    rfl

/-- C1: for every draw instruction (sprite height n < 16), every sprite row
i < n and bit j < 8 targets the pixel at flat index
((Vy + i) mod 32) * 64 + (Vx + j) mod 64 - wraparound, never clipping; the
new pixel state is the old state XOR the sprite bit; and the flag register
receives 1 iff at least one pixel went from on to off during the call
(equivalently: some targeted pixel was on and its sprite bit set). -/
theorem draw_wraps_xors_reports_collision (x y n : Nat) (m : Machine) (hn : n < 16) :
    (∀ i, i < n → ∀ j, j < 8 →
      (ins_DXYN x y n m).px (tgt (m.V x) (m.V y) (i, j)) =
        xor (m.px (tgt (m.V x) (m.V y) (i, j))) (sbit (fun a => m.ram (m.I + a)) (i, j)))
    ∧ ((ins_DXYN x y n m).V 15 = 1 ↔
       ∃ i, i < n ∧ ∃ j, j < 8 ∧
         m.px (tgt (m.V x) (m.V y) (i, j)) = true ∧
         sbit (fun a => m.ram (m.I + a)) (i, j) = true) := by
  have hpw := pairs_pairwise_tgt (m.V x) (m.V y) n (by omega)
  have hds := display_sprite_eq_pairs (m.V x) (m.V y) (fun a => m.ram (m.I + a)) n m.px
  obtain ⟨hs1, hs2⟩ :=
    foldl_blit_spec (m.V x) (m.V y) (fun a => m.ram (m.I + a)) (pairs n) (m.px, false) hpw
  constructor
  · intro i hi j hj
    have hmem : (i, j) ∈ pairs n := (mem_pairs n (i, j)).mpr ⟨hi, hj⟩
    show (display_sprite (m.V x) (m.V y) (fun a => m.ram (m.I + a)) n m.px).1
        (tgt (m.V x) (m.V y) (i, j)) = _
    rw [hds]
    exact hs1 (i, j) hmem
  · have hv : (ins_DXYN x y n m).V 15 =
        (if (display_sprite (m.V x) (m.V y) (fun a => m.ram (m.I + a)) n m.px).2 = true
         then 1 else 0) := by
      simp only [ins_DXYN]
      exact upd_same _ _ _
    have hif : ∀ b : Bool, ((if b = true then (1 : Nat) else 0) = 1 ↔ b = true) := by decide
    rw [hv, hds, hs2]
    simp only [Bool.false_or]
    rw [hif, List.any_eq_true]
    constructor
    · rintro ⟨p, hpmem, hp⟩
      obtain ⟨hp1, hp2⟩ := (mem_pairs n p).mp hpmem
      obtain ⟨hpx, hbit⟩ := Bool.and_eq_true_iff.mp hp
      exact ⟨p.1, hp1, p.2, hp2, by rw [Prod.mk.eta]; exact hpx, by rw [Prod.mk.eta]; exact hbit⟩
    · rintro ⟨i, hi, j, hj, hpx, hbit⟩
      exact ⟨(i, j), (mem_pairs n (i, j)).mpr ⟨hi, hj⟩, Bool.and_eq_true_iff.mpr ⟨hpx, hbit⟩⟩

/-- Witness for C1 at a wrapping corner: sprite byte 0xC0 drawn at
(62, 30) on a 1-row sprite over a cleared display. -/
theorem draw_wraps_xors_reports_collision_witness :
    (∀ i, i < 1 → ∀ j, j < 8 →
      (ins_DXYN 0 1 1 mDraw).px (tgt (mDraw.V 0) (mDraw.V 1) (i, j)) =
        xor (mDraw.px (tgt (mDraw.V 0) (mDraw.V 1) (i, j)))
            (sbit (fun a => mDraw.ram (mDraw.I + a)) (i, j)))
    ∧ ((ins_DXYN 0 1 1 mDraw).V 15 = 1 ↔
       ∃ i, i < 1 ∧ ∃ j, j < 8 ∧
         mDraw.px (tgt (mDraw.V 0) (mDraw.V 1) (i, j)) = true ∧
         sbit (fun a => mDraw.ram (mDraw.I + a)) (i, j) = true) :=
  draw_wraps_xors_reports_collision 0 1 1 mDraw (by decide)

/-! ### C9 - error propagation inside handlers (ins_FX07, ins_FX18) -/

theorem upd_upd_same (f : Nat → Nat) (i v w : Nat) : upd (upd f i v) i w = upd f i w := by
  funext j
  by_cases h : j = i <;> simp [upd, h]

/-- C9 counterexample: a failing delay-timer query inside FX07 aborts the
handler (diagnostic emitted), yet Vx has already been clobbered to 0: with
V4 = 5 before the instruction, the register file was modified even though
the instruction's defined transition (Vx := DT) never completed. -/
theorem fx07_partial_effect_on_error :
    (ins_FX07 envFail.dtQuery 4 mDelay).2 = true ∧
    mDelay.V 4 = 5 ∧ (ins_FX07 envFail.dtQuery 4 mDelay).1.V 4 = 0 := by
  decide

/-- C9 (amended): handler errors abandon the remainder of the handler but
leave already-performed side effects in place. FX07 pre-clears Vx, so a
query failure ends with Vx = 0 (not the pre-instruction value); on success
Vx receives the queried byte. FX18 arms nothing when timer_settime fails,
but when start_playback fails it has already armed the sound timer and
aborts with the timer armed and playback silent. -/
theorem handler_error_effects (q : Option Nat) (a p : Bool) (x : Nat) (m : Machine) :
    (q = none → ins_FX07 q x m = ({ m with V := upd m.V x 0 }, true))
    ∧ (∀ d, q = some d → ins_FX07 q x m = ({ m with V := upd m.V x (d % 256) }, false))
    ∧ (a = false → ins_FX18 a p x m = (m, true))
    ∧ (a = true → p = false → ins_FX18 a p x m = ({ m with stArmed := true }, true))
    ∧ (a = true → p = true →
       ins_FX18 a p x m = ({ m with stArmed := true, playing := true }, false)) := by
  refine ⟨?_, ?_, ?_, ?_, ?_⟩
  · rintro rfl; rfl
  · rintro d rfl
    simp only [ins_FX07]
    rw [upd_upd_same]
  · rintro rfl; rfl
  · rintro rfl rfl; rfl
  · rintro rfl rfl; rfl

/-- Witness for the amended C9: failing query on V4 = 5, and an armed
sound timer surviving a failed playback start. -/
theorem handler_error_effects_witness :
    ins_FX07 none 4 mDelay = ({ mDelay with V := upd mDelay.V 4 0 }, true) ∧
    ins_FX18 true false 4 mDelay = ({ mDelay with stArmed := true }, true) :=
  ⟨(handler_error_effects none true false 4 mDelay).1 rfl,
   (handler_error_effects none true false 4 mDelay).2.2.2.1 rfl rfl⟩

/-! ### C10 - FX0A wait-for-key retry semantics -/

theorem find?_congr_mem (L : List Nat) (p q : Nat → Bool) (h : ∀ a ∈ L, p a = q a) :
    L.find? p = L.find? q := by
  induction L with
  | nil => rfl
  | cons a L ih =>
    have ha := h a (List.mem_cons_self a L)
    have ht := ih (fun b hb => h b (List.mem_cons_of_mem a hb))
    rw [List.find?_cons, List.find?_cons, ha, ht]

/-- find? on a strictly sorted list returns the least satisfying element. -/
theorem find?_first_sorted (L : List Nat) (p : Nat → Bool) (k : Nat)
    (hs : L.Pairwise (fun a b => a < b)) (hk : k ∈ L) (hpk : p k = true)
    (hmin : ∀ j, j < k → p j = false) : L.find? p = some k := by
  induction L with
  | nil => cases hk
  | cons a L ih =>
    obtain ⟨ha, hs2⟩ := List.pairwise_cons.mp hs
    rcases List.mem_cons.mp hk with rfl | hkL
    · rw [List.find?_cons_of_pos L hpk]
    · rw [List.find?_cons_of_neg L (by rw [hmin a (ha k hkL)]; exact Bool.false_ne_true)]
      exact ih hs2 hkL

/-- The update_keystate loop over index list L (distinct indices, none equal
to the 0xff sentinel): starting from ret = r0, the returned value is r0 if
it was already claimed, else the first index whose key is newly pressed
relative to the key state at loop entry, else 0xff. -/
theorem uks_foldl_ret (new : Nat → Bool) (L : List Nat) (r0 : Nat) (ks : Nat → Bool)
    (hnd : L.Nodup) (h255 : ∀ i ∈ L, i ≠ 255) :
    (L.foldl (uksStep new) (r0, ks)).1 =
      if r0 = 255 then
        (match L.find? (fun i => !ks i && new i) with
         | some k => k
         | none => 255)
      else r0 := by
  induction L generalizing r0 ks with
  | nil =>
    by_cases h : r0 = 255 <;> simp [h]
  | cons a L ih =>
    obtain ⟨hna, hnd2⟩ := List.pairwise_cons.mp hnd
    have hstep : uksStep new (r0, ks) a =
        (if ks a = false ∧ new a = true ∧ r0 = 255 then a else r0, updB ks a (new a)) := rfl
    have hcong : L.find? (fun i => !(updB ks a (new a)) i && new i)
        = L.find? (fun i => !ks i && new i) := by
      refine find?_congr_mem L _ _ (fun b hb => ?_)
      rw [updB_other _ _ _ _ (fun h => (hna b hb) h.symm)]
    have hih := fun r k => ih r k hnd2 (fun i hi => h255 i (List.mem_cons_of_mem a hi))
    rw [List.foldl_cons, hstep]
    by_cases hr : r0 = 255
    · subst hr
      by_cases hcondA : ks a = false ∧ new a = true
      · have hnew : (!ks a && new a) = true := by
          rw [hcondA.1, hcondA.2]; rfl
        rw [if_pos ⟨hcondA.1, hcondA.2, rfl⟩, hih, hcong,
            if_neg (h255 a (List.mem_cons_self a L)), if_pos rfl,
            List.find?_cons_of_pos L hnew]
      · have hnew : (!ks a && new a) = false := by
          rcases Bool.eq_false_or_eq_true (ks a) with h | h
          · rw [h]; rfl
          · rcases Bool.eq_false_or_eq_true (new a) with h2 | h2
            · exact absurd ⟨h, h2⟩ hcondA
            · rw [h, h2]; rfl
        rw [if_neg (fun hc => hcondA ⟨hc.1, hc.2.1⟩), hih, hcong, if_pos rfl, if_pos rfl,
            List.find?_cons_of_neg L (by rw [hnew]; exact Bool.false_ne_true)]
    · rw [if_neg (fun hc => hr hc.2.2), hih, if_neg hr, if_neg hr]

/-- C10: as long as the forced refresh finds no newly pressed key, FX0A
stores the refresh's non-key return 0xff (> 0x0F) into Vx - the previous
Vx is not preserved - and rewinds PC by 2 to retry; once a newly pressed
key exists, Vx receives the lowest such key code (0x0-0xF) and the PC is
left alone. -/
theorem fx0a_overwrites_vx_until_key (new : Nat → Bool) (m : Machine) (x : Nat) :
    ((∀ i, i < 16 → ¬(m.keys i = false ∧ new i = true)) →
      (ins_FX0A new x m).V x = 255 ∧ 0x0f < (ins_FX0A new x m).V x ∧
      (ins_FX0A new x m).PC = (m.PC + 65534) % 65536)
    ∧ (∀ k, k < 16 → m.keys k = false → new k = true →
        (∀ j, j < k → ¬(m.keys j = false ∧ new j = true)) →
        (ins_FX0A new x m).V x = k ∧ (ins_FX0A new x m).V x ≤ 0x0f ∧
        (ins_FX0A new x m).PC = m.PC) := by
  have hnd : (List.range 16).Nodup := List.nodup_range 16
  have h255 : ∀ i ∈ List.range 16, i ≠ 255 := by
    intro i hi
    have := List.mem_range.mp hi
    omega
  have hbase := uks_foldl_ret new (List.range 16) 255 m.keys hnd h255
  rw [if_pos rfl] at hbase
  constructor
  · intro hno
    have hnone : (List.range 16).find? (fun i => !m.keys i && new i) = none := by
      rw [List.find?_eq_none]
      intro i hi hp
      have hilt := List.mem_range.mp hi
      obtain ⟨h1, h2⟩ := Bool.and_eq_true_iff.mp hp
      exact hno i hilt ⟨by simpa using h1, h2⟩
    have hret : ((List.range 16).foldl (uksStep new) (255, m.keys)).1 = 255 := by
      rw [hbase, hnone]
    simp only [ins_FX0A, update_keystate]
    rw [hret]
    simp [upd]
  · intro k hk hks hnew hmin
    have hsome : (List.range 16).find? (fun i => !m.keys i && new i) = some k := by
      refine find?_first_sorted (List.range 16) _ k (List.pairwise_lt_range 16)
        (List.mem_range.mpr hk) (by rw [hks, hnew]; rfl) (fun j hj => ?_)
      have hthis := hmin j hj
      rcases Bool.eq_false_or_eq_true (m.keys j) with h | h
      · rw [h]; rfl
      · rcases Bool.eq_false_or_eq_true (new j) with h2 | h2
        · exact absurd ⟨h, h2⟩ hthis
        · rw [h, h2]; rfl
    have hret : ((List.range 16).foldl (uksStep new) (255, m.keys)).1 = k := by
      rw [hbase, hsome]
    simp only [ins_FX0A, update_keystate]
    rw [hret]
    have hkmod : k % 256 = k := Nat.mod_eq_of_lt (by omega)
    have hng : ¬(k > 15) := by omega
    simp [upd, hkmod, hng]
    omega

/-- Witness for C10 on a concrete machine with no key newly pressed. -/
theorem fx0a_overwrites_vx_until_key_witness :
    (ins_FX0A env0.keys 7 base).V 7 = 255 ∧ 0x0f < (ins_FX0A env0.keys 7 base).V 7 ∧
    (ins_FX0A env0.keys 7 base).PC = (base.PC + 65534) % 65536 :=
  (fx0a_overwrites_vx_until_key env0.keys base 7).1 (by decide)

/-! ### C4 - decode of undocumented instruction words -/

set_option maxHeartbeats 2000000 in
/-- C4 counterexample: 0xF0FF matches no documented instruction, yet the
0xF class of the dispatch switch has no default branch: the word is
dispatched with no diagnostic and the machine is returned untouched - a
silent no-op, not a fatal decode error. -/
theorem unknown_f_class_opcode_is_silent_noop :
    documented 0xf0ff = false ∧ (dispatch env0 0xf0ff base).2 = false ∧
    (dispatch env0 0xf0ff base).1 = base := by
  refine ⟨by decide, by decide, rfl⟩

/-- C4 (amended): an instruction word matching no handler leaves the
machine untouched; in the 0x0, 0x5, 0x8, 0x9 and 0xE classes the default
branch emits an "unknown instruction" diagnostic and abandons the rest of
the cycle (the callback merely returns - the CPU timer stays armed, so
execution continues at the next tick rather than halting), while in the
0xF class, which has no default branch, the word is skipped silently. -/
theorem undocumented_dispatch (env : Env) (ins : Nat) (m : Machine) (hi : ins < 65536)
    (hnd : documented ins = false) :
    dispatch env ins m = (m, decide (ins / 4096 ≠ 15)) := by
  have hcase : ins / 4096 = 0 ∨ ins / 4096 = 1 ∨ ins / 4096 = 2 ∨ ins / 4096 = 3 ∨
      ins / 4096 = 4 ∨ ins / 4096 = 5 ∨ ins / 4096 = 6 ∨ ins / 4096 = 7 ∨
      ins / 4096 = 8 ∨ ins / 4096 = 9 ∨ ins / 4096 = 10 ∨ ins / 4096 = 11 ∨
      ins / 4096 = 12 ∨ ins / 4096 = 13 ∨ ins / 4096 = 14 ∨ ins / 4096 = 15 := by
    omega
  rcases hcase with h|h|h|h|h|h|h|h|h|h|h|h|h|h|h|h <;> simp_all [dispatch, documented]

/-- Witness for the amended C4 at the undocumented word 0x5001. -/
theorem undocumented_dispatch_witness :
    dispatch env0 0x5001 base = (base, decide (0x5001 / 4096 ≠ 15)) :=
  undocumented_dispatch env0 0x5001 base (by decide) (by decide)

/-! ### C6 - program counter alignment and bounds before fetch -/

/-- C6 counterexample: from the reachable boot state over the ROM
`12 03 00 60 05` (PC = 0x200), the first cycle executes "jump 0x203" with
no diagnostic and leaves the program counter at the odd address 0x203;
the next fetch then proceeds from that odd address with no error of any
kind and executes the word 0x6005 found there (V0 := 5, PC := 0x205).
PC misalignment is never detected, let alone fatal. -/
theorem odd_pc_jump_and_fetch_unchecked :
    (consume_ins env0 mBoot).2 = false ∧ (consume_ins env0 mBoot).1.PC = 0x203 ∧
    0x203 % 2 = 1 ∧
    (consume_ins env0 (consume_ins env0 mBoot).1).2 = false ∧
    (consume_ins env0 (consume_ins env0 mBoot).1).1.V 0 = 5 ∧
    (consume_ins env0 (consume_ins env0 mBoot).1).1.PC = 0x205 := by
  decide

/-- C6 (amended): neither the fetch stage nor the jump/call handlers check
the program counter: jump and call accept every 12-bit target, odd or
even, with no diagnostic, and the next fetch simply reads from whatever
address PC holds. -/
theorem jump_call_accept_any_target (env : Env) (m : Machine) (nnn : Nat) (hn : nnn < 4096) :
    dispatch env (0x1000 + nnn) m = ({ m with PC := nnn }, false)
    ∧ dispatch env (0x2000 + nnn) m =
      ({ m with stack := upd m.stack m.SP (m.PC % 65536), SP := (m.SP + 1) % 256,
                PC := nnn }, false) := by
  have ha : (0x1000 + nnn) / 4096 = 1 := by omega
  have hb : (0x1000 + nnn) % 4096 = nnn := by omega
  have hc : (0x2000 + nnn) / 4096 = 2 := by omega
  have hd : (0x2000 + nnn) % 4096 = nnn := by omega
  have hpc : nnn % 65536 = nnn := by omega
  constructor
  · simp [dispatch, ha, hb, ins_1NNN, hpc]
  · simp [dispatch, hc, hd, ins_2NNN, hpc]

/-- Witness for the amended C6 at the odd target 0x203. -/
theorem jump_call_accept_any_target_witness :
    dispatch env0 (0x1000 + 0x203) base = ({ base with PC := 0x203 }, false)
    ∧ dispatch env0 (0x2000 + 0x203) base =
      ({ base with stack := upd base.stack base.SP (base.PC % 65536),
                   SP := (base.SP + 1) % 256, PC := 0x203 }, false) :=
  jump_call_accept_any_target env0 base 0x203 (by decide)

end Chip8
